import Mathlib

/-!
Shallow embedding of the ego gRPC interceptor layer
(src/client/egrpc/interceptor.go and the server interceptors found in the
egrpc package), together with theorems about its logging, panic-recovery,
deadline, metrics-labeling and header-propagation behaviour.

Durations are modelled as `Int` nanoseconds (Go `time.Duration` is `int64`).
Metadata (`metadata.MD`) is an association list from keys to value lists.
The `context.Context` is modelled as an explicit record.
-/

set_option maxHeartbeats 1000000

/-- Log severity used by elog: `Info`, `Warn`, `Error`. -/
inductive Level where
  | info
  | warn
  | error
  deriving DecidableEq, Repr

/-- Field of a structured log entry (an elog `Field`; the name `Field` is
taken by Mathlib), rendered as a name/value pair of strings. -/
structure LogField where
  key : String
  value : String
  deriving DecidableEq, Repr

/-- Log entry emitted by an elog `Component`: severity, message, field set. -/
structure LogEntry where
  lvl : Level
  msg : String
  fields : List LogField
  deriving DecidableEq, Repr

/-- Go error value as seen by `status.Convert` / `status.Code`: either an
error carrying a gRPC status (code and message), or a plain error whose
status defaults to `codes.Unknown` (2) with the error text as message. -/
inductive GoError where
  | statusErr (code : Nat) (msg : String)
  | plain (msg : String)
  deriving DecidableEq, Repr

/-- Message of a Go error (`err.Error()`). -/
def GoError.message : GoError → String
  | .statusErr _ m => m
  | .plain m => m

/-- Status code extracted by `status.Code(err)` / `status.Convert(err).Code()`:
`codes.OK` (0) for a nil error, the carried code for a status error,
`codes.Unknown` (2) for any other error. -/
def statusCode : Option GoError → Nat
  | none => 0
  | some (.statusErr c _) => c
  | some (.plain _) => 2

/-- Message of `status.Convert(err)`: empty for a nil error, otherwise the
error message. -/
def statusMessage : Option GoError → String
  | none => ""
  | some e => e.message

/-- Modelled from the spec: `ecode.GrpcToHTTPStatusCode` (internal/ecode is
not part of the sources), the normalization of a gRPC status code to an
HTTP status code; server-fault classes map to codes at or above 500
(`internal` and above per the spec's error taxonomy). -/
def GrpcToHTTPStatusCode (code : Nat) : Nat :=
  match code with
  | 0 => 200   -- OK
  | 1 => 408   -- Canceled
  | 2 => 500   -- Unknown
  | 3 => 400   -- InvalidArgument
  | 4 => 408   -- DeadlineExceeded
  | 5 => 404   -- NotFound
  | 6 => 409   -- AlreadyExists
  | 7 => 403   -- PermissionDenied
  | 8 => 429   -- ResourceExhausted
  | 9 => 412   -- FailedPrecondition
  | 10 => 409  -- Aborted
  | 11 => 400  -- OutOfRange
  | 12 => 501  -- Unimplemented
  | 13 => 500  -- Internal
  | 14 => 503  -- Unavailable
  | 15 => 500  -- DataLoss
  | 16 => 401  -- Unauthenticated
  | _ => 500

/-- Modelled from the spec: `http.StatusText`, the standard-library text of
an HTTP status code, used only as an opaque outcome label on metrics. -/
def httpStatusText (code : Nat) : String :=
  match code with
  | 200 => "OK"
  | 400 => "Bad Request"
  | 401 => "Unauthorized"
  | 403 => "Forbidden"
  | 404 => "Not Found"
  | 408 => "Request Timeout"
  | 409 => "Conflict"
  | 412 => "Precondition Failed"
  | 429 => "Too Many Requests"
  | 499 => "Client Closed Request"
  | 500 => "Internal Server Error"
  | 501 => "Not Implemented"
  | 503 => "Service Unavailable"
  | _ => ""

/-- Metadata bag (`metadata.MD`): association list from header name to the
list of values stored under it. -/
abbrev Metadata := List (String × List String)

/-- Values stored under a key (`md.Get(key)`); empty when absent. -/
def mdGet (md : Metadata) (key : String) : List String :=
  match md.find? (fun p => p.1 == key) with
  | some p => p.2
  | none => []

/-- Appending one value under a key (the effect of
`metadata.AppendToOutgoingContext(ctx, key, value)` on the bag). -/
def mdAppend (md : Metadata) (key value : String) : Metadata :=
  match md with
  | [] => [(key, [value])]
  | (k, vs) :: rest =>
    if k == key then (k, vs ++ [value]) :: rest
    else (k, vs) :: mdAppend rest key value

/-- Go `context.Context` as the interceptors see it: optional incoming and
outgoing metadata, the string values stored by `transport.WithValue`, an
optional absolute deadline (ns), and the transport peer
(`peer.FromContext`: `none` = no peer attached, `some none` = peer with a
nil address, `some (some a)` = peer with address string `a`). -/
structure Context where
  incoming : Option Metadata
  outgoing : Option Metadata
  values : List (String × String)
  deadline : Option Int
  peerAddr : Option (Option String)
  deriving DecidableEq, Repr

/-- Modelled from the spec: `transport.WithValue` (core/transport is not part
of the sources; its unit test and the spec's Propagated-Header Registry
section describe it) — stores a string value under a key in the context. -/
def transportWithValue (ctx : Context) (key value : String) : Context :=
  { ctx with values := (key, value) :: ctx.values }

/-- Modelled from the spec: `tools.ContextValue` / `transport.Value`
(internal/tools is not part of the sources) — reads the string stored under
a key, or the empty string when absent. -/
def contextValue (ctx : Context) (key : String) : String :=
  match ctx.values.find? (fun p => p.1 == key) with
  | some p => p.2
  | none => ""

/-- Modelled from the spec: `tools.GrpcHeaderValue` (internal/tools is not
part of the sources) — joins the values of a header of the incoming
metadata with a semicolon, or returns the empty string when the context
carries no incoming metadata. -/
def GrpcHeaderValue (ctx : Context) (key : String) : String :=
  match ctx.incoming with
  | none => ""
  | some md => String.intercalate ";" (mdGet md key)

/-- Outgoing-metadata append on a context
(`metadata.AppendToOutgoingContext`); a context without outgoing metadata
starts from an empty bag. -/
def appendToOutgoingContext (ctx : Context) (key value : String) : Context :=
  { ctx with outgoing := some (mdAppend (ctx.outgoing.getD []) key value) }

/-- Splitting a character list at every occurrence of a separator character;
models Go `strings.Split(s, sep)` for a one-character separator. -/
def splitChar (sep : Char) : List Char → List (List Char)
  | [] => [[]]
  | c :: cs =>
    if c == sep then [] :: splitChar sep cs
    else
      match splitChar sep cs with
      | [] => [[c]]
      | g :: gs => (c :: g) :: gs

theorem splitChar_ne_nil (sep : Char) (l : List Char) : splitChar sep l ≠ [] := by
  induction l with
  | nil => simp [splitChar]
  | cons c cs ih =>
    simp only [splitChar]
    split
    · simp
    · cases h : splitChar sep cs <;> simp

theorem length_splitChar (sep : Char) (l : List Char) :
    (splitChar sep l).length = l.count sep + 1 := by
  induction l with
  | nil => simp [splitChar]
  | cons c cs ih =>
    by_cases hc : c = sep
    · subst hc
      simp [splitChar, ih, List.count_cons]
    · have hb : (c == sep) = false := beq_eq_false_iff_ne.mpr hc
      simp only [splitChar, hb, Bool.false_eq_true, if_false]
      cases h : splitChar sep cs with
      | nil => exact absurd h (splitChar_ne_nil sep cs)
      | cons g gs =>
        rw [h] at ih
        simp only [List.length_cons] at ih ⊢
        rw [List.count_cons]
        simp only [hb, Bool.false_eq_true, if_false]
        omega

theorem headD_splitChar (sep : Char) (l : List Char) :
    (splitChar sep l).headD [] = l.takeWhile (fun c => c != sep) := by
  induction l with
  | nil => simp [splitChar]
  | cons c cs ih =>
    simp only [splitChar]
    by_cases hc : c == sep
    · simp only [hc, if_pos, List.headD_cons, List.takeWhile_cons]
      have : (c != sep) = false := by
        simp [bne, hc]
      simp [this]
    · simp only [hc, Bool.false_eq_true, if_false]
      cases h : splitChar sep cs with
      | nil => exact absurd h (splitChar_ne_nil sep cs)
      | cons g gs =>
        rw [h] at ih
        simp only [List.headD_cons] at ih
        simp only [List.headD_cons, List.takeWhile_cons]
        have : (c != sep) = true := by
          simp [bne, hc]
        simp only [this, if_pos, ih]

/-- Peer application name (`getPeerName`): the "app" header of the incoming
carrier. -/
def getPeerName (ctx : Context) : String :=
  GrpcHeaderValue ctx "app"

/-- Peer IP (`getPeerIP`): the non-empty "client-ip" carrier header if set;
else the part of the transport peer address before the first colon; the
empty string when there is no peer, a nil address, or no colon. -/
def getPeerIP (ctx : Context) : String :=
  let clientIP := GrpcHeaderValue ctx "client-ip"
  if clientIP ≠ "" then clientIP
  else
    match ctx.peerAddr with
    | none => ""
    | some none => ""
    | some (some addr) =>
      let addSlice := splitChar ':' addr.data
      if 1 < addSlice.length then String.mk (addSlice.headD []) else ""

/-- Application label for server metrics (`extractApp`): the comma-join of
the "app" values of the incoming metadata when the context carries incoming
metadata; "unknown" otherwise. -/
def extractApp (ctx : Context) : String :=
  match ctx.incoming with
  | some md => String.intercalate "," (mdGet md "app")
  | none => "unknown"

/-- CPU-usage request flag (`enableCPUUsage`): true when the incoming
"enable-cpu-usage" header value is exactly "true". -/
def enableCPUUsage (ctx : Context) : Bool :=
  GrpcHeaderValue ctx "enable-cpu-usage" == "true"

/-- Interceptor configuration (`Config`), restricted to the options the
interceptors read. `slowLogThreshold` is a duration in nanoseconds; a value
at or below zero disables slow-call logging. -/
structure Config where
  slowLogThreshold : Int
  enableAccessInterceptor : Bool
  enableAccessInterceptorReq : Bool
  enableAccessInterceptorRes : Bool
  enableTraceInterceptor : Bool
  enableCPUUsage : Bool
  deriving DecidableEq, Repr

/-- Field constructor `elog.FieldStack`. -/
def FieldStack (s : String) : LogField := ⟨"stack", s⟩

/-- Field constructor `elog.FieldEvent`. -/
def FieldEvent (e : String) : LogField := ⟨"event", e⟩

/-- Field constructor `elog.FieldType`. -/
def FieldType (t : String) : LogField := ⟨"type", t⟩

/-- Field constructor `elog.FieldCode` (normalized HTTP status code). -/
def FieldCode (c : Nat) : LogField := ⟨"code", toString c⟩

/-- Field constructor `elog.FieldOriginCode` (raw gRPC status code). -/
def FieldOriginCode (c : Nat) : LogField := ⟨"ocode", toString c⟩

/-- Field constructor `elog.FieldDescription` (status message). -/
def FieldDescription (m : String) : LogField := ⟨"msg", m⟩

/-- Field constructor `elog.FieldMethod`. -/
def FieldMethod (m : String) : LogField := ⟨"method", m⟩

/-- Field constructor `elog.FieldCost` (elapsed duration). -/
def FieldCost (c : Int) : LogField := ⟨"cost", toString c⟩

/-- Field constructor `elog.FieldPeerName`. -/
def FieldPeerName (p : String) : LogField := ⟨"peerName", p⟩

/-- Field constructor `elog.FieldPeerIP`. -/
def FieldPeerIP (p : String) : LogField := ⟨"peerIp", p⟩

/-- Field constructor `elog.FieldCustomKeyValue` (registered custom key). -/
def FieldCustomKeyValue (k v : String) : LogField := ⟨k, v⟩

/-- Field constructor `elog.FieldTid` (trace identifier). -/
def FieldTid (t : String) : LogField := ⟨"tid", t⟩

/-- Field constructor `elog.FieldErr`. -/
def FieldErr (e : GoError) : LogField := ⟨"error", e.message⟩

/-- Field constructor `elog.FieldName` (client target). -/
def FieldName (n : String) : LogField := ⟨"name", n⟩

/-- Field constructor `elog.Any`, with the value already serialized. -/
def FieldAny (k v : String) : LogField := ⟨k, v⟩

/-- Behaviour of the delegated handler/invoker for one call: normal return,
error return, or a panic carrying either an error value or a non-error
value (recorded by its `%v` rendering) together with the captured stack. -/
inductive HandlerResult where
  | ok (res : String)
  | fail (e : GoError)
  | panicErr (e : GoError) (stack : String)
  | panicOther (v : String) (stack : String)
  deriving DecidableEq, Repr

/-- Recover block shared by the two server interceptors' deferred
functions: the effective error, the event tag, and the fields the recovery
path appends. A panic with an error value becomes that error; a panic with
any other value becomes `fmt.Errorf("%v", rec)`, a plain error whose
message renders the panic value; either way the event becomes "recover" and
the captured stack is appended. -/
def recoverOutcome : HandlerResult → Option GoError × String × List LogField
  | .ok _ => (none, "normal", [])
  | .fail e => (some e, "normal", [])
  | .panicErr e stack => (some e, "recover", [FieldStack stack])
  | .panicOther v stack => (some (.plain v), "recover", [FieldStack stack])

/-- Loop shared by `defaultUnaryServerInterceptor` (pre-handler) and the
client's `customHeader`: for every given key whose incoming header value is
non-empty, that value is written into the active context. -/
def grpcHeaderKeyFold (keys : List String) (ctx : Context) : Context :=
  keys.foldl
    (fun c key =>
      let value := GrpcHeaderValue c key
      if value ≠ "" then transportWithValue c key value else c)
    ctx

/-- Input of one server unary call: caller context, handler behaviour,
elapsed cost (ns), sampled CPU usage (0 = unavailable), method, tracer
state and pre-serialized payloads. -/
structure UnaryServerInput where
  ctx : Context
  handler : HandlerResult
  cost : Int
  cpuUsage : Nat
  method : String
  tracerRegistered : Bool
  traceID : String
  reqJSON : String
  resJSON : String
  deriving DecidableEq, Repr

/-- Observable output of `defaultUnaryServerInterceptor`: the returned
error, the emitted log entries in order, the context the handler ran
under, and the response header attached by the CPU-usage exchange. -/
structure UnaryServerOutput where
  err : Option GoError
  logs : List LogEntry
  ctxOut : Context
  cpuHeader : Option (String × String)
  deriving DecidableEq, Repr

/-- Server unary interceptor `defaultUnaryServerInterceptor`: writes each
registered non-empty incoming header into the context, answers the
CPU-usage exchange, runs the handler under a recover guard, and logs a
"slow" entry and/or an "access" entry according to outcome, elapsed time
and configuration. When there is no error, access logging is off and the
call is not slow, it returns without building any field or entry. -/
def defaultUnaryServerInterceptor (config : Config) (loggerKeys : List String)
    (inp : UnaryServerInput) : UnaryServerOutput :=
  let ctx := grpcHeaderKeyFold loggerKeys inp.ctx
  let cpuHeader :=
    if enableCPUUsage ctx ∧ 0 < inp.cpuUsage then
      some ("cpu-usage", toString inp.cpuUsage)
    else none
  let (err, event, recFields) := recoverOutcome inp.handler
  let isSlow : Bool :=
    decide (0 < config.slowLogThreshold ∧ config.slowLogThreshold < inp.cost)
  if err = none ∧ config.enableAccessInterceptor = false ∧ isSlow = false then
    { err := none, logs := [], ctxOut := ctx, cpuHeader := cpuHeader }
  else
    let spbCode := statusCode err
    let httpStatusCode := GrpcToHTTPStatusCode spbCode
    let fields := recFields ++
      [FieldType "unary",
       FieldCode httpStatusCode,
       FieldOriginCode spbCode,
       FieldDescription (statusMessage err),
       FieldEvent event,
       FieldMethod inp.method,
       FieldCost inp.cost,
       FieldPeerName (getPeerName ctx),
       FieldPeerIP (getPeerIP ctx)]
    let fields := fields ++ loggerKeys.filterMap
      (fun key =>
        let value := contextValue ctx key
        if value ≠ "" then some (FieldCustomKeyValue key value) else none)
    let fields :=
      if config.enableTraceInterceptor && inp.tracerRegistered then
        fields ++ [FieldTid inp.traceID]
      else fields
    let fields :=
      if config.enableAccessInterceptorReq then fields ++ [FieldAny "req" inp.reqJSON]
      else fields
    let fields :=
      if config.enableAccessInterceptorRes then fields ++ [FieldAny "res" inp.resJSON]
      else fields
    let slowLogs := if isSlow then [LogEntry.mk .warn "slow" fields] else []
    match err with
    | some e =>
      let errFields := fields ++ [FieldErr e]
      let entry :=
        if 500 ≤ httpStatusCode then LogEntry.mk .error "access" errFields
        else LogEntry.mk .warn "access" errFields
      { err := some e, logs := slowLogs ++ [entry], ctxOut := ctx, cpuHeader := cpuHeader }
    | none =>
      let accessLogs :=
        if config.enableAccessInterceptor then [LogEntry.mk .info "access" fields] else []
      { err := none, logs := slowLogs ++ accessLogs, ctxOut := ctx, cpuHeader := cpuHeader }

/-- Input of one server stream call. -/
structure StreamServerInput where
  ctx : Context
  handler : HandlerResult
  cost : Int
  deriving DecidableEq, Repr

/-- Observable output of `defaultStreamServerInterceptor`. -/
structure StreamServerOutput where
  err : Option GoError
  logs : List LogEntry
  deriving DecidableEq, Repr

/-- Server stream interceptor `defaultStreamServerInterceptor`: recover
guard plus logging; unlike the unary variant it has no early return, so a
successful, quiet call still emits an info "access" entry. -/
def defaultStreamServerInterceptor (config : Config) (inp : StreamServerInput) :
    StreamServerOutput :=
  let (err, event, recFields) := recoverOutcome inp.handler
  let spbCode := statusCode err
  let httpStatusCode := GrpcToHTTPStatusCode spbCode
  let fields := recFields ++
    [FieldType "stream",
     FieldEvent event,
     FieldCode httpStatusCode,
     FieldOriginCode spbCode,
     FieldDescription (statusMessage err),
     FieldCost inp.cost,
     FieldPeerName (getPeerName inp.ctx),
     FieldPeerIP (getPeerIP inp.ctx)]
  let isSlow : Bool :=
    decide (0 < config.slowLogThreshold ∧ config.slowLogThreshold < inp.cost)
  let slowLogs := if isSlow then [LogEntry.mk .warn "slow" fields] else []
  match err with
  | some e =>
    let errFields := fields ++ [FieldErr e]
    let entry :=
      if 500 ≤ httpStatusCode then LogEntry.mk .error "access" errFields
      else LogEntry.mk .warn "access" errFields
    { err := some e, logs := slowLogs ++ [entry] }
  | none =>
    { err := none, logs := slowLogs ++ [LogEntry.mk .info "access" fields] }

/-- Pre-invoke loop of `loggerUnaryClientInterceptor`: every registered
custom context key with a non-empty context value is recorded as a log
field and appended to the outgoing metadata of the context handed to the
invoker. -/
def clientKeyFold (loggerKeys : List String) (acc : List LogField × Context) :
    List LogField × Context :=
  loggerKeys.foldl
    (fun p key =>
      let value := contextValue p.2 key
      if value ≠ "" then
        (p.1 ++ [FieldCustomKeyValue key value], appendToOutgoingContext p.2 key value)
      else p)
    acc

/-- Input of one client unary call as the logger interceptor sees it. -/
structure ClientInput where
  ctx : Context
  invokeErr : Option GoError
  cost : Int
  method : String
  target : String
  tracerRegistered : Bool
  traceID : String
  reqJSON : String
  resJSON : String
  deriving DecidableEq, Repr

/-- Observable output of `loggerUnaryClientInterceptor`: returned error,
emitted log entries in order, and the context handed to the invoker. -/
structure ClientOutput where
  err : Option GoError
  logs : List LogEntry
  ctxToInvoker : Context
  deriving DecidableEq, Repr

/-- Client logger interceptor `loggerUnaryClientInterceptor`: propagates
registered custom keys into the outgoing metadata, then logs a "slow"
entry and/or an "access" entry according to outcome, elapsed time and
configuration, and returns the invoker's error. -/
def loggerUnaryClientInterceptor (config : Config) (loggerKeys : List String)
    (inp : ClientInput) : ClientOutput :=
  let p := clientKeyFold loggerKeys ([], inp.ctx)
  let ctx := p.2
  let err := inp.invokeErr
  let spbCode := statusCode err
  let httpStatusCode := GrpcToHTTPStatusCode spbCode
  let fields := p.1 ++
    [FieldType "unary",
     FieldCode httpStatusCode,
     FieldOriginCode spbCode,
     FieldDescription (statusMessage err),
     FieldMethod inp.method,
     FieldCost inp.cost,
     FieldName inp.target]
  let fields :=
    if config.enableTraceInterceptor && inp.tracerRegistered then fields ++ [FieldTid inp.traceID]
    else fields
  let fields :=
    if config.enableAccessInterceptorReq then fields ++ [FieldAny "req" inp.reqJSON]
    else fields
  let fields :=
    if config.enableAccessInterceptorRes then fields ++ [FieldAny "res" inp.resJSON]
    else fields
  let isSlow : Bool :=
    decide (0 < config.slowLogThreshold ∧ config.slowLogThreshold < inp.cost)
  let slowLogs := if isSlow then [LogEntry.mk .warn "slow" fields] else []
  match err with
  | some e =>
    let errFields := fields ++ [FieldEvent "error", FieldErr e]
    let entry :=
      if 500 ≤ httpStatusCode then LogEntry.mk .error "access" errFields
      else LogEntry.mk .warn "access" errFields
    { err := some e, logs := slowLogs ++ [entry], ctxToInvoker := ctx }
  | none =>
    if config.enableAccessInterceptor then
      { err := none,
        logs := slowLogs ++ [LogEntry.mk .info "access" (fields ++ [FieldEvent "normal"])],
        ctxToInvoker := ctx }
    else
      { err := none, logs := slowLogs, ctxToInvoker := ctx }

/-- Deadline enforcement (`timeoutUnaryClientInterceptor`): when the
caller-supplied context carries no deadline, the invoker runs under a
derived context whose deadline is `now + timeout` where `now` is the
instant the interceptor runs (the call start); otherwise the context is
passed through unchanged. Returns the invoker's error and the context the
invoker received. -/
def timeoutUnaryClientInterceptor (timeout : Int) (now : Int) (ctx : Context)
    (invoker : Context → Option GoError) : Option GoError × Context :=
  match ctx.deadline with
  | none =>
    let ctx2 := { ctx with deadline := some (now + timeout) }
    (invoker ctx2, ctx2)
  | some _ => (invoker ctx, ctx)

/-- Client `customHeader` interceptor: writes each given key's non-empty
incoming header value into the active context, then invokes. -/
def customHeader (egoLogExtraKeys : List String) (ctx : Context)
    (invoker : Context → Option GoError) : Option GoError × Context :=
  let ctx2 := grpcHeaderKeyFold egoLogExtraKeys ctx
  (invoker ctx2, ctx2)

/-- Client `defaultUnaryClientInterceptor`: always attaches the
application name under "app" to the outgoing metadata, and attaches
"enable-cpu-usage" = "true" when the option is on, then invokes. -/
def defaultUnaryClientInterceptor (config : Config) (appName : String) (ctx : Context)
    (invoker : Context → Option GoError) : Option GoError × Context :=
  let ctx2 := appendToOutgoingContext ctx "app" appName
  let ctx3 :=
    if config.enableCPUUsage then appendToOutgoingContext ctx2 "enable-cpu-usage" "true"
    else ctx2
  (invoker ctx3, ctx3)

/-- Label tuple of one metrics observation. -/
structure MetricLabels where
  typ : String
  name : String
  method : String
  peer : String
  deriving DecidableEq, Repr

/-- Observable output of `metricUnaryClientInterceptor`: the returned
error plus the counter and histogram observations it records. -/
structure ClientMetricOutput where
  err : Option GoError
  counterLabels : MetricLabels
  counterResult : String
  histogramLabels : MetricLabels
  deriving DecidableEq, Repr

/-- Client metrics interceptor `metricUnaryClientInterceptor`: records a
counter and a histogram sample labelled with the configured target
(`cc.Target()`) as peer, and returns the invoker's error unchanged. -/
def metricUnaryClientInterceptor (name method target : String)
    (invokeErr : Option GoError) : ClientMetricOutput :=
  { err := invokeErr,
    counterLabels := ⟨"unary", name, method, target⟩,
    counterResult := httpStatusText (GrpcToHTTPStatusCode (statusCode invokeErr)),
    histogramLabels := ⟨"unary", name, method, target⟩ }

/-- Observable output of `prometheusUnaryServerInterceptor`. -/
structure ServerMetricOutput where
  err : Option GoError
  histogramTyp : String
  histogramMethod : String
  histogramPeer : String
  counterTyp : String
  counterMethod : String
  counterPeer : String
  counterResult : String
  deriving DecidableEq, Repr

/-- Server metrics interceptor `prometheusUnaryServerInterceptor`: records
a histogram sample and a counter increment whose peer label is the
caller's declared application name (`extractApp`), and returns the
handler's error unchanged. -/
def prometheusUnaryServerInterceptor (ctx : Context) (fullMethod : String)
    (handlerErr : Option GoError) : ServerMetricOutput :=
  { err := handlerErr,
    histogramTyp := "unary",
    histogramMethod := fullMethod,
    histogramPeer := extractApp ctx,
    counterTyp := "unary",
    counterMethod := fullMethod,
    counterPeer := extractApp ctx,
    counterResult := httpStatusText (GrpcToHTTPStatusCode (statusCode handlerErr)) }

/-- Tracing client interceptor `traceUnaryClientInterceptor`, reduced to
its observable outcome: the invoker's error is returned unchanged, and the
span carries an error tag exactly when the invoker failed. -/
def traceUnaryClientInterceptor (invokeErr : Option GoError) : Option GoError × Bool :=
  (invokeErr, invokeErr.isSome)

/-- Entries of an emitted log stream whose message is "access". -/
def accessEntries (logs : List LogEntry) : List LogEntry :=
  logs.filter (fun l => l.msg == "access")

theorem intercalate_singleton (s v : String) : String.intercalate s [v] = v := rfl

theorem mdGet_mdAppend_self (md : Metadata) (key value : String) :
    mdGet (mdAppend md key value) key = mdGet md key ++ [value] := by
  induction md with
  | nil => simp [mdGet, mdAppend]
  | cons p rest ih =>
    obtain ⟨k, vs⟩ := p
    by_cases hk : (k == key) = true
    · simp [mdAppend, hk, mdGet, List.find?_cons]
    · simp only [mdAppend, hk, Bool.false_eq_true, if_false]
      simp only [mdGet, List.find?_cons, hk] at ih ⊢
      exact ih

theorem mdGet_mdAppend_ne (md : Metadata) (k2 key value : String)
    (h : (k2 == key) = false) :
    mdGet (mdAppend md k2 value) key = mdGet md key := by
  induction md with
  | nil => simp [mdGet, mdAppend, List.find?_cons, h]
  | cons p rest ih =>
    obtain ⟨k, vs⟩ := p
    by_cases hk : (k == k2) = true
    · have hkey : (k == key) = false := by
        have : k = k2 := eq_of_beq hk
        rw [this]; exact h
      simp [mdAppend, hk, mdGet, List.find?_cons, hkey]
    · simp only [mdAppend, hk, Bool.false_eq_true, if_false]
      by_cases hkey : (k == key) = true
      · simp [mdGet, List.find?_cons, hkey]
      · simp only [mdGet, List.find?_cons, hkey, Bool.false_eq_true, cond_false] at ih ⊢
        exact ih

theorem contextValue_transportWithValue_self (ctx : Context) (key value : String) :
    contextValue (transportWithValue ctx key value) key = value := by
  simp [contextValue, transportWithValue, List.find?_cons]

theorem contextValue_transportWithValue_ne (ctx : Context) (k2 key value : String)
    (h : (k2 == key) = false) :
    contextValue (transportWithValue ctx k2 value) key = contextValue ctx key := by
  simp [contextValue, transportWithValue, List.find?_cons, h]

theorem grpcHeaderKeyFold_cons (k : String) (rest : List String) (ctx : Context) :
    grpcHeaderKeyFold (k :: rest) ctx
      = grpcHeaderKeyFold rest
          (if GrpcHeaderValue ctx k ≠ "" then
            transportWithValue ctx k (GrpcHeaderValue ctx k)
          else ctx) := rfl

theorem incoming_grpcHeaderKeyFold (keys : List String) (ctx : Context) :
    (grpcHeaderKeyFold keys ctx).incoming = ctx.incoming := by
  induction keys generalizing ctx with
  | nil => rfl
  | cons k rest ih =>
    rw [grpcHeaderKeyFold_cons, ih]
    split <;> rfl

theorem GrpcHeaderValue_congr (c1 c2 : Context) (h : c1.incoming = c2.incoming)
    (key : String) : GrpcHeaderValue c1 key = GrpcHeaderValue c2 key := by
  unfold GrpcHeaderValue
  rw [h]

theorem grpcHeaderKeyFold_contextValue (keys : List String) (key v : String)
    (hne : v ≠ "") (ctx : Context)
    (hv : GrpcHeaderValue ctx key = v)
    (h : key ∈ keys ∨ contextValue ctx key = v) :
    contextValue (grpcHeaderKeyFold keys ctx) key = v := by
  induction keys generalizing ctx with
  | nil =>
    rcases h with h | h
    · simp at h
    · exact h
  | cons k rest ih =>
    rw [grpcHeaderKeyFold_cons]
    by_cases hkey : k = key
    · subst hkey
      rw [hv, if_pos hne]
      apply ih (transportWithValue ctx k v)
      · rw [GrpcHeaderValue_congr (transportWithValue ctx k v) ctx rfl k]
        exact hv
      · exact Or.inr (contextValue_transportWithValue_self ctx k v)
    · have hkk : (k == key) = false := beq_eq_false_iff_ne.mpr hkey
      by_cases hc : GrpcHeaderValue ctx k ≠ ""
      · rw [if_pos hc]
        apply ih (transportWithValue ctx k (GrpcHeaderValue ctx k))
        · rw [GrpcHeaderValue_congr (transportWithValue ctx k (GrpcHeaderValue ctx k)) ctx rfl key]
          exact hv
        · rcases h with hmem | hval
          · rcases List.mem_cons.mp hmem with he | hr
            · exact absurd he.symm hkey
            · exact Or.inl hr
          · right
            rw [contextValue_transportWithValue_ne ctx k key _ hkk]
            exact hval
      · rw [if_neg hc]
        apply ih ctx hv
        rcases h with hmem | hval
        · rcases List.mem_cons.mp hmem with he | hr
          · exact absurd he.symm hkey
          · exact Or.inl hr
        · exact Or.inr hval

theorem clientKeyFold_cons (k : String) (rest : List String)
    (acc : List LogField × Context) :
    clientKeyFold (k :: rest) acc
      = clientKeyFold rest
          (if contextValue acc.2 k ≠ "" then
            (acc.1 ++ [FieldCustomKeyValue k (contextValue acc.2 k)],
             appendToOutgoingContext acc.2 k (contextValue acc.2 k))
          else acc) := rfl

theorem values_clientKeyFold (keys : List String) (acc : List LogField × Context) :
    (clientKeyFold keys acc).2.values = acc.2.values := by
  induction keys generalizing acc with
  | nil => rfl
  | cons k rest ih =>
    rw [clientKeyFold_cons, ih]
    split <;> rfl

theorem clientKeyFold_mdGet_not_mem (keys : List String) (key : String)
    (hk : key ∉ keys) (acc : List LogField × Context) :
    mdGet ((clientKeyFold keys acc).2.outgoing.getD []) key
      = mdGet (acc.2.outgoing.getD []) key := by
  induction keys generalizing acc with
  | nil => rfl
  | cons k rest ih =>
    rw [clientKeyFold_cons]
    have hkr : key ∉ rest := fun hm => hk (List.mem_cons_of_mem _ hm)
    have hkk : (k == key) = false :=
      beq_eq_false_iff_ne.mpr (fun he => hk (he ▸ List.mem_cons_self k rest))
    rw [ih hkr]
    split
    · show mdGet (mdAppend (acc.2.outgoing.getD []) k _) key = _
      exact mdGet_mdAppend_ne _ _ _ _ hkk
    · rfl

theorem clientKeyFold_mdGet_exact (keys : List String) (key v : String)
    (hne : v ≠ "") (hnd : keys.Nodup) (hk : key ∈ keys)
    (acc : List LogField × Context)
    (hv : contextValue acc.2 key = v)
    (h0 : mdGet (acc.2.outgoing.getD []) key = []) :
    mdGet ((clientKeyFold keys acc).2.outgoing.getD []) key = [v] := by
  induction keys generalizing acc with
  | nil => simp at hk
  | cons k rest ih =>
    rw [clientKeyFold_cons]
    by_cases hkey : k = key
    · subst hkey
      rw [hv, if_pos hne]
      have hnr : k ∉ rest := (List.nodup_cons.mp hnd).1
      rw [clientKeyFold_mdGet_not_mem rest k hnr _]
      show mdGet (mdAppend (acc.2.outgoing.getD []) k v) k = [v]
      rw [mdGet_mdAppend_self, h0]
      rfl
    · have hkr : key ∈ rest := by
        rcases List.mem_cons.mp hk with he | hr
        · exact absurd he.symm hkey
        · exact hr
      have hkk : (k == key) = false := beq_eq_false_iff_ne.mpr hkey
      split
      · apply ih (List.nodup_cons.mp hnd).2 hkr
        · exact hv
        · show mdGet (mdAppend (acc.2.outgoing.getD []) k _) key = []
          rw [mdGet_mdAppend_ne _ _ _ _ hkk]
          exact h0
      · exact ih (List.nodup_cons.mp hnd).2 hkr acc hv h0

theorem clientKeyFold_mdGet_mem (keys : List String) (key v : String) (hne : v ≠ "")
    (acc : List LogField × Context)
    (h : (key ∈ keys ∧ contextValue acc.2 key = v)
          ∨ v ∈ mdGet (acc.2.outgoing.getD []) key) :
    v ∈ mdGet ((clientKeyFold keys acc).2.outgoing.getD []) key := by
  induction keys generalizing acc with
  | nil =>
    rcases h with ⟨h, _⟩ | h
    · simp at h
    · exact h
  | cons k rest ih =>
    rw [clientKeyFold_cons]
    by_cases hkey : k = key
    · subst hkey
      rcases h with ⟨_, hv⟩ | hm
      · rw [hv, if_pos hne]
        apply ih
        right
        show v ∈ mdGet (mdAppend (acc.2.outgoing.getD []) k v) k
        rw [mdGet_mdAppend_self]
        exact List.mem_append.mpr (Or.inr (List.mem_singleton.mpr rfl))
      · split
        · apply ih
          right
          show v ∈ mdGet (mdAppend (acc.2.outgoing.getD []) k _) k
          rw [mdGet_mdAppend_self]
          exact List.mem_append.mpr (Or.inl hm)
        · exact ih acc (Or.inr hm)
    · have hkk : (k == key) = false := beq_eq_false_iff_ne.mpr hkey
      have hmem : key ∈ k :: rest → key ∈ rest := by
        intro hmem
        rcases List.mem_cons.mp hmem with he | hr
        · exact absurd he.symm hkey
        · exact hr
      split
      · apply ih
        rcases h with ⟨hm1, hv⟩ | hm
        · exact Or.inl ⟨hmem hm1, hv⟩
        · right
          show v ∈ mdGet (mdAppend (acc.2.outgoing.getD []) k _) key
          rw [mdGet_mdAppend_ne _ _ _ _ hkk]
          exact hm
      · apply ih
        rcases h with ⟨hm1, hv⟩ | hm
        · exact Or.inl ⟨hmem hm1, hv⟩
        · exact Or.inr hm

theorem ctxOut_defaultUnaryServerInterceptor (config : Config) (loggerKeys : List String)
    (inp : UnaryServerInput) :
    (defaultUnaryServerInterceptor config loggerKeys inp).ctxOut
      = grpcHeaderKeyFold loggerKeys inp.ctx := by
  unfold defaultUnaryServerInterceptor
  cases inp.handler <;>
    simp only [recoverOutcome] <;>
    split <;>
    rfl

theorem err_defaultUnaryServerInterceptor (config : Config) (loggerKeys : List String)
    (inp : UnaryServerInput) :
    (defaultUnaryServerInterceptor config loggerKeys inp).err
      = (recoverOutcome inp.handler).1 := by
  unfold defaultUnaryServerInterceptor
  cases inp.handler <;>
    simp only [recoverOutcome] <;>
    split <;>
    first | rfl | simp_all

theorem cpuHeader_defaultUnaryServerInterceptor (config : Config) (loggerKeys : List String)
    (inp : UnaryServerInput) :
    (defaultUnaryServerInterceptor config loggerKeys inp).cpuHeader
      = (if enableCPUUsage (grpcHeaderKeyFold loggerKeys inp.ctx) ∧ 0 < inp.cpuUsage then
          some ("cpu-usage", toString inp.cpuUsage)
        else none) := by
  unfold defaultUnaryServerInterceptor
  cases inp.handler <;>
    simp only [recoverOutcome] <;>
    split <;>
    rfl

theorem err_defaultStreamServerInterceptor (config : Config) (inp : StreamServerInput) :
    (defaultStreamServerInterceptor config inp).err
      = (recoverOutcome inp.handler).1 := by
  unfold defaultStreamServerInterceptor
  cases inp.handler <;>
    simp only [recoverOutcome]

theorem err_loggerUnaryClientInterceptor (config : Config) (loggerKeys : List String)
    (inp : ClientInput) :
    (loggerUnaryClientInterceptor config loggerKeys inp).err = inp.invokeErr := by
  unfold loggerUnaryClientInterceptor
  cases h : inp.invokeErr <;>
    simp only [h] <;>
    split <;>
    rfl

theorem ctxToInvoker_loggerUnaryClientInterceptor (config : Config) (loggerKeys : List String)
    (inp : ClientInput) :
    (loggerUnaryClientInterceptor config loggerKeys inp).ctxToInvoker
      = (clientKeyFold loggerKeys ([], inp.ctx)).2 := by
  unfold loggerUnaryClientInterceptor
  cases h : inp.invokeErr <;>
    simp only [h] <;>
    split <;>
    rfl

/-- C3: for every client unary call whose caller-supplied context carries no
deadline, the timeout interceptor hands the next stage a context whose
deadline is the call start plus the configured default timeout; when the
caller did set a deadline, the context passed on carries that same deadline
unchanged. -/
theorem deadline_timeoutUnaryClientInterceptor (t now d : Int) (ctx : Context)
    (invoker : Context → Option GoError) :
    (timeoutUnaryClientInterceptor t now { ctx with deadline := none } invoker).2.deadline
        = some (now + t)
    ∧ (timeoutUnaryClientInterceptor t now { ctx with deadline := some d } invoker).2.deadline
        = some d := ⟨rfl, rfl⟩

/-- C9: every interceptor returns the delegated invocation's error
unchanged — metrics, tracing, logging, timeout and header-propagation
interceptors never replace, wrap or swallow it; only the panic-recovery
guard synthesizes an error, and only from a panic (the non-panic handler
outcomes pass through both server interceptors untouched). -/
theorem interceptors_return_error_unchanged
    (cfg : Config) (keys keys2 : List String) (inp : ClientInput)
    (sinp : UnaryServerInput) (tinp : StreamServerInput)
    (n m tgt app r : String) (e : Option GoError) (e2 : GoError)
    (t now : Int) (ctx : Context) (invoker : Context → Option GoError) :
    (metricUnaryClientInterceptor n m tgt e).err = e
    ∧ (traceUnaryClientInterceptor e).1 = e
    ∧ (loggerUnaryClientInterceptor cfg keys inp).err = inp.invokeErr
    ∧ (timeoutUnaryClientInterceptor t now ctx invoker).1
        = invoker (timeoutUnaryClientInterceptor t now ctx invoker).2
    ∧ (customHeader keys2 ctx invoker).1 = invoker (customHeader keys2 ctx invoker).2
    ∧ (defaultUnaryClientInterceptor cfg app ctx invoker).1
        = invoker (defaultUnaryClientInterceptor cfg app ctx invoker).2
    ∧ (prometheusUnaryServerInterceptor ctx m e).err = e
    ∧ (defaultUnaryServerInterceptor cfg keys { sinp with handler := .ok r }).err = none
    ∧ (defaultUnaryServerInterceptor cfg keys { sinp with handler := .fail e2 }).err = some e2
    ∧ (defaultStreamServerInterceptor cfg { tinp with handler := .ok r }).err = none
    ∧ (defaultStreamServerInterceptor cfg { tinp with handler := .fail e2 }).err = some e2 := by
  refine ⟨rfl, rfl, err_loggerUnaryClientInterceptor cfg keys inp, ?_, rfl, rfl, rfl, ?_, ?_, ?_, ?_⟩
  · cases h : ctx.deadline <;> simp [timeoutUnaryClientInterceptor, h]
  · rw [err_defaultUnaryServerInterceptor]; rfl
  · rw [err_defaultUnaryServerInterceptor]; rfl
  · rw [err_defaultStreamServerInterceptor]; rfl
  · rw [err_defaultStreamServerInterceptor]; rfl

/-- C10: `getPeerIP` returns the "client-ip" carrier header when it is
non-empty; otherwise the text of the transport peer address before its
first colon; and it totally returns the empty string when no peer is
attached, the peer address is nil, or the address contains no colon. -/
theorem getPeerIP_spec (ctx : Context) (addr : String) :
    (GrpcHeaderValue ctx "client-ip" ≠ "" →
      getPeerIP ctx = GrpcHeaderValue ctx "client-ip")
    ∧ (GrpcHeaderValue ctx "client-ip" = "" → ctx.peerAddr = none → getPeerIP ctx = "")
    ∧ (GrpcHeaderValue ctx "client-ip" = "" → ctx.peerAddr = some none → getPeerIP ctx = "")
    ∧ (GrpcHeaderValue ctx "client-ip" = "" → ctx.peerAddr = some (some addr) →
        ':' ∈ addr.data →
        getPeerIP ctx = String.mk (addr.data.takeWhile (fun c => c != ':')))
    ∧ (GrpcHeaderValue ctx "client-ip" = "" → ctx.peerAddr = some (some addr) →
        ':' ∉ addr.data → getPeerIP ctx = "") := by
  refine ⟨?_, ?_, ?_, ?_, ?_⟩
  · intro h1
    simp only [getPeerIP]
    rw [if_pos h1]
  · intro h1 h2
    simp only [getPeerIP]
    rw [if_neg (by simp [h1]), h2]
  · intro h1 h2
    simp only [getPeerIP]
    rw [if_neg (by simp [h1]), h2]
  · intro h1 h2 h3
    simp only [getPeerIP]
    rw [if_neg (by simp [h1]), h2]
    have hlen : 1 < (splitChar ':' addr.data).length := by
      rw [length_splitChar]
      have : 0 < addr.data.count ':' := List.count_pos_iff.mpr h3
      omega
    show (if 1 < (splitChar ':' addr.data).length
        then String.mk ((splitChar ':' addr.data).headD []) else "")
      = String.mk (addr.data.takeWhile (fun c => c != ':'))
    rw [if_pos hlen, headD_splitChar]
  · intro h1 h2 h3
    simp only [getPeerIP]
    rw [if_neg (by simp [h1]), h2]
    have hlen : ¬ 1 < (splitChar ':' addr.data).length := by
      rw [length_splitChar]
      have : addr.data.count ':' = 0 := List.count_eq_zero.mpr h3
      omega
    show (if 1 < (splitChar ':' addr.data).length
        then String.mk ((splitChar ':' addr.data).headD []) else "")
      = ""
    rw [if_neg hlen]

/-- C10 witness: for a context with no "client-ip" header and peer address
"10.2.3.4:50051", `getPeerIP` returns the host part before the colon. -/
theorem getPeerIP_spec_witness :
    GrpcHeaderValue ⟨some [], none, [], none, some (some "10.2.3.4:50051")⟩ "client-ip" = ""
    ∧ getPeerIP ⟨some [], none, [], none, some (some "10.2.3.4:50051")⟩ = "10.2.3.4" := by
  constructor
  · rfl
  · rw [(getPeerIP_spec ⟨some [], none, [], none, some (some "10.2.3.4:50051")⟩
      "10.2.3.4:50051").2.2.2.1 rfl rfl (by decide)]
    decide

/-- C8 counterexample: a server context that carries incoming metadata with
no "app" entry — the caller declared no application name, yet the metrics
peer label is the empty string rather than "unknown". -/
theorem extractApp_empty_md_counterexample :
    (prometheusUnaryServerInterceptor ⟨some [], none, [], none, none⟩
        "/pkg.S/M" none).counterPeer = ""
    ∧ (prometheusUnaryServerInterceptor ⟨some [], none, [], none, none⟩
        "/pkg.S/M" none).counterPeer ≠ "unknown" :=
  ⟨rfl, by decide⟩

/-- C8 (amended): the server metrics peer label is `extractApp`, which is
"unknown" only when the context carries no incoming metadata at all; with
metadata present it is the comma-join of the declared "app" values, which
is empty when none were declared. Client metrics use the configured target
as peer. -/
theorem metrics_peer_labels (ctx : Context) (md : Metadata)
    (og : Option Metadata) (vals : List (String × String)) (dl : Option Int)
    (pa : Option (Option String)) (m n tgt : String) (e : Option GoError) :
    (prometheusUnaryServerInterceptor ctx m e).counterPeer = extractApp ctx
    ∧ (prometheusUnaryServerInterceptor ctx m e).histogramPeer = extractApp ctx
    ∧ extractApp ⟨none, og, vals, dl, pa⟩ = "unknown"
    ∧ extractApp ⟨some md, og, vals, dl, pa⟩ = String.intercalate "," (mdGet md "app")
    ∧ (metricUnaryClientInterceptor n m tgt e).counterLabels.peer = tgt
    ∧ (metricUnaryClientInterceptor n m tgt e).histogramLabels.peer = tgt :=
  ⟨rfl, rfl, rfl, rfl, rfl, rfl⟩

/-- C1 counterexample: a server unary call that is both slow (150 > 100)
and errored emits two log entries — a warn "slow" entry and an error
"access" entry — not one. -/
theorem slow_error_logs_twice_counterexample :
    ((defaultUnaryServerInterceptor ⟨100, false, false, false, false, false⟩ []
        ⟨⟨some [], none, [], none, none⟩, .fail (.statusErr 13 "boom"), 150, 0, "/s/m",
          false, "", "", ""⟩).logs.map
      (fun l => (l.lvl, l.msg)))
      = [(Level.warn, "slow"), (Level.error, "access")] := by decide

/-- C1 (amended): per call the interceptors emit one "slow" entry iff the
call exceeds a positive slow threshold, plus one "access" entry iff the
call errored or (for the unary paths) access logging is enabled; the
streaming server interceptor emits the "access" entry on every call. So the
emission predicate implies at least one entry, but a call that is slow and
also errored (or slow with access logging applying) produces two entries,
not one. -/
theorem log_entry_count (cfg : Config) (keys : List String)
    (sinp : UnaryServerInput) (tinp : StreamServerInput) (cinp : ClientInput) :
    (defaultUnaryServerInterceptor cfg keys sinp).logs.length
      = ((if 0 < cfg.slowLogThreshold ∧ cfg.slowLogThreshold < sinp.cost then 1 else 0)
        + (if (recoverOutcome sinp.handler).1 ≠ none ∨ cfg.enableAccessInterceptor = true
            then 1 else 0))
    ∧ (defaultStreamServerInterceptor cfg tinp).logs.length
      = ((if 0 < cfg.slowLogThreshold ∧ cfg.slowLogThreshold < tinp.cost then 1 else 0) + 1)
    ∧ (loggerUnaryClientInterceptor cfg keys cinp).logs.length
      = ((if 0 < cfg.slowLogThreshold ∧ cfg.slowLogThreshold < cinp.cost then 1 else 0)
        + (if cinp.invokeErr ≠ none ∨ cfg.enableAccessInterceptor = true then 1 else 0)) := by
  refine ⟨?_, ?_, ?_⟩
  · unfold defaultUnaryServerInterceptor
    cases sinp.handler <;>
      simp only [recoverOutcome] <;>
      by_cases hs : 0 < cfg.slowLogThreshold ∧ cfg.slowLogThreshold < sinp.cost <;>
      cases ha : cfg.enableAccessInterceptor <;>
      simp [hs, ha]
  · unfold defaultStreamServerInterceptor
    cases tinp.handler <;>
      simp only [recoverOutcome] <;>
      by_cases hs : 0 < cfg.slowLogThreshold ∧ cfg.slowLogThreshold < tinp.cost <;>
      simp [hs]
  · unfold loggerUnaryClientInterceptor
    cases he : cinp.invokeErr <;>
      simp only [he] <;>
      by_cases hs : 0 < cfg.slowLogThreshold ∧ cfg.slowLogThreshold < cinp.cost <;>
      cases ha : cfg.enableAccessInterceptor <;>
      simp [hs, ha]

/-- C5: every failed call produces exactly one "access" entry, emitted at
error severity iff the normalized HTTP status mapped from the gRPC code is
at least 500, and at warning severity otherwise — for the client logger
interceptor and both server interceptors; exactly one of the two
severities is used. -/
theorem access_severity_on_error (cfg : Config) (keys : List String)
    (cinp : ClientInput) (sinp : UnaryServerInput) (tinp : StreamServerInput) (e : GoError) :
    ((accessEntries (loggerUnaryClientInterceptor cfg keys
          { cinp with invokeErr := some e }).logs).map (fun l => l.lvl))
      = [if 500 ≤ GrpcToHTTPStatusCode (statusCode (some e)) then Level.error else Level.warn]
    ∧ ((accessEntries (defaultUnaryServerInterceptor cfg keys
          { sinp with handler := .fail e }).logs).map (fun l => l.lvl))
      = [if 500 ≤ GrpcToHTTPStatusCode (statusCode (some e)) then Level.error else Level.warn]
    ∧ ((accessEntries (defaultStreamServerInterceptor cfg
          { tinp with handler := .fail e }).logs).map (fun l => l.lvl))
      = [if 500 ≤ GrpcToHTTPStatusCode (statusCode (some e)) then Level.error else Level.warn] := by
  refine ⟨?_, ?_, ?_⟩
  · unfold loggerUnaryClientInterceptor
    by_cases hc : 500 ≤ GrpcToHTTPStatusCode (statusCode (some e)) <;>
      by_cases hs : 0 < cfg.slowLogThreshold ∧ cfg.slowLogThreshold < cinp.cost <;>
      simp [accessEntries, hc, hs]
  · unfold defaultUnaryServerInterceptor
    by_cases hc : 500 ≤ GrpcToHTTPStatusCode (statusCode (some e)) <;>
      by_cases hs : 0 < cfg.slowLogThreshold ∧ cfg.slowLogThreshold < sinp.cost <;>
      simp [accessEntries, recoverOutcome, hc, hs]
  · unfold defaultStreamServerInterceptor
    by_cases hc : 500 ≤ GrpcToHTTPStatusCode (statusCode (some e)) <;>
      by_cases hs : 0 < cfg.slowLogThreshold ∧ cfg.slowLogThreshold < tinp.cost <;>
      simp [accessEntries, recoverOutcome, hc, hs]

/-- C2: a handler panic with a non-error value V becomes a plain error
whose message renders V (a panic with an error value becomes that error
itself); the emitted access entry's field set contains the non-empty
captured stack and a "recover" event; and the interceptor returns normally
with the synthesized error — on both the unary and the stream server
paths. -/
theorem panic_recovery (cfg : Config) (keys : List String)
    (sinp : UnaryServerInput) (tinp : StreamServerInput)
    (v stack : String) (e : GoError) (hst : stack ≠ "") :
    (defaultUnaryServerInterceptor cfg keys { sinp with handler := .panicOther v stack }).err
        = some (.plain v)
    ∧ statusMessage (defaultUnaryServerInterceptor cfg keys
        { sinp with handler := .panicOther v stack }).err = v
    ∧ (defaultUnaryServerInterceptor cfg keys { sinp with handler := .panicErr e stack }).err
        = some e
    ∧ (accessEntries (defaultUnaryServerInterceptor cfg keys
        { sinp with handler := .panicOther v stack }).logs).length = 1
    ∧ (∀ l ∈ accessEntries (defaultUnaryServerInterceptor cfg keys
          { sinp with handler := .panicOther v stack }).logs,
        FieldStack stack ∈ l.fields ∧ (FieldStack stack).value ≠ ""
          ∧ FieldEvent "recover" ∈ l.fields)
    ∧ (defaultStreamServerInterceptor cfg { tinp with handler := .panicOther v stack }).err
        = some (.plain v)
    ∧ (defaultStreamServerInterceptor cfg { tinp with handler := .panicErr e stack }).err
        = some e
    ∧ (accessEntries (defaultStreamServerInterceptor cfg
        { tinp with handler := .panicOther v stack }).logs).length = 1
    ∧ (∀ l ∈ accessEntries (defaultStreamServerInterceptor cfg
          { tinp with handler := .panicOther v stack }).logs,
        FieldStack stack ∈ l.fields ∧ (FieldStack stack).value ≠ ""
          ∧ FieldEvent "recover" ∈ l.fields) := by
  refine ⟨?_, ?_, ?_, ?_, ?_, ?_, ?_, ?_, ?_⟩
  · rw [err_defaultUnaryServerInterceptor]; rfl
  · rw [err_defaultUnaryServerInterceptor]; rfl
  · rw [err_defaultUnaryServerInterceptor]; rfl
  · unfold defaultUnaryServerInterceptor
    by_cases hc : 500 ≤ GrpcToHTTPStatusCode (statusCode (some (GoError.plain v))) <;>
      by_cases hs : 0 < cfg.slowLogThreshold ∧ cfg.slowLogThreshold < sinp.cost <;>
      simp [accessEntries, recoverOutcome, hc, hs]
  · unfold defaultUnaryServerInterceptor
    intro l hl
    by_cases hc : 500 ≤ GrpcToHTTPStatusCode (statusCode (some (GoError.plain v))) <;>
      by_cases hs : 0 < cfg.slowLogThreshold ∧ cfg.slowLogThreshold < sinp.cost <;>
      simp [accessEntries, recoverOutcome, hc, hs] at hl <;>
      subst hl <;>
      refine ⟨?_, hst, ?_⟩ <;>
      ((repeat' split) <;> simp)
  · rw [err_defaultStreamServerInterceptor]; rfl
  · rw [err_defaultStreamServerInterceptor]; rfl
  · unfold defaultStreamServerInterceptor
    by_cases hc : 500 ≤ GrpcToHTTPStatusCode (statusCode (some (GoError.plain v))) <;>
      by_cases hs : 0 < cfg.slowLogThreshold ∧ cfg.slowLogThreshold < tinp.cost <;>
      simp [accessEntries, recoverOutcome, hc, hs]
  · unfold defaultStreamServerInterceptor
    intro l hl
    by_cases hc : 500 ≤ GrpcToHTTPStatusCode (statusCode (some (GoError.plain v))) <;>
      by_cases hs : 0 < cfg.slowLogThreshold ∧ cfg.slowLogThreshold < tinp.cost <;>
      simp [accessEntries, recoverOutcome, hc, hs] at hl <;>
      subst hl <;>
      refine ⟨?_, hst, ?_⟩ <;>
      ((repeat' split) <;> simp)

/-- C2 witness: a panic with the non-error value "oops 7" and a non-empty
stack renders into a plain error returned by the unary server
interceptor. -/
theorem panic_recovery_witness :
    ("goroutine 1 [running]: main.main()" ≠ "")
    ∧ (defaultUnaryServerInterceptor ⟨0, false, false, false, false, false⟩ []
        ⟨⟨some [], none, [], none, none⟩,
          .panicOther "oops 7" "goroutine 1 [running]: main.main()",
          0, 0, "/m", false, "", "", ""⟩).err = some (.plain "oops 7") := by
  refine ⟨by decide, ?_⟩
  exact (panic_recovery ⟨0, false, false, false, false, false⟩ []
    ⟨⟨some [], none, [], none, none⟩, .ok "x", 0, 0, "/m", false, "", "", ""⟩
    ⟨⟨some [], none, [], none, none⟩, .ok "x", 0⟩
    "oops 7" "goroutine 1 [running]: main.main()" (.plain "ignored") (by decide)).1

/-- C7: CPU-usage exchange on the server unary interceptor — when the
incoming carrier sets "enable-cpu-usage" to "true": a sampled usage of 0
(unavailable) attaches no header, a positive sampled usage attaches a
"cpu-usage" header numerically equal to the sample; when the flag is not
set to "true" no header is ever attached. -/
theorem cpu_usage_exchange (cfg : Config) (keys : List String) (inp : UnaryServerInput)
    (u : Nat) :
    (GrpcHeaderValue inp.ctx "enable-cpu-usage" = "true" →
      (defaultUnaryServerInterceptor cfg keys { inp with cpuUsage := 0 }).cpuHeader = none
      ∧ (defaultUnaryServerInterceptor cfg keys { inp with cpuUsage := u + 1 }).cpuHeader
          = some ("cpu-usage", toString (u + 1)))
    ∧ (GrpcHeaderValue inp.ctx "enable-cpu-usage" ≠ "true" →
      (defaultUnaryServerInterceptor cfg keys { inp with cpuUsage := u }).cpuHeader = none) := by
  have hfold : ∀ c2 : Context, c2 = inp.ctx →
      enableCPUUsage (grpcHeaderKeyFold keys c2) = enableCPUUsage inp.ctx := by
    intro c2 h2
    unfold enableCPUUsage
    rw [GrpcHeaderValue_congr (grpcHeaderKeyFold keys c2) inp.ctx
      (by rw [incoming_grpcHeaderKeyFold, h2]) "enable-cpu-usage"]
  constructor
  · intro h
    have hen : enableCPUUsage inp.ctx = true := by
      simp [enableCPUUsage, h]
    constructor
    · rw [cpuHeader_defaultUnaryServerInterceptor]
      rw [if_neg]
      intro hcontra
      exact absurd hcontra.2 (Nat.lt_irrefl 0)
    · rw [cpuHeader_defaultUnaryServerInterceptor]
      rw [if_pos]
      constructor
      · rw [hfold _ rfl]
        exact hen
      · exact Nat.succ_pos u
  · intro h
    have hen : enableCPUUsage inp.ctx = false := by
      simp [enableCPUUsage]
      intro hcontra
      exact absurd hcontra h
    rw [cpuHeader_defaultUnaryServerInterceptor]
    rw [if_neg]
    intro hcontra
    rw [hfold _ rfl] at hcontra
    rw [hen] at hcontra
    exact Bool.false_ne_true hcontra.1

/-- C7 witness: with the flag set, usage 0 attaches no header and usage 42
attaches "cpu-usage" = "42"; with the flag absent nothing is attached. -/
theorem cpu_usage_exchange_witness :
    GrpcHeaderValue ⟨some [("enable-cpu-usage", ["true"])], none, [], none, none⟩
        "enable-cpu-usage" = "true"
    ∧ (defaultUnaryServerInterceptor ⟨0, false, false, false, false, false⟩ []
        ⟨⟨some [("enable-cpu-usage", ["true"])], none, [], none, none⟩,
          .ok "r", 0, 0, "/m", false, "", "", ""⟩).cpuHeader = none
    ∧ (defaultUnaryServerInterceptor ⟨0, false, false, false, false, false⟩ []
        ⟨⟨some [("enable-cpu-usage", ["true"])], none, [], none, none⟩,
          .ok "r", 0, 42, "/m", false, "", "", ""⟩).cpuHeader = some ("cpu-usage", "42")
    ∧ GrpcHeaderValue ⟨some [], none, [], none, none⟩ "enable-cpu-usage" ≠ "true"
    ∧ (defaultUnaryServerInterceptor ⟨0, false, false, false, false, false⟩ []
        ⟨⟨some [], none, [], none, none⟩, .ok "r", 0, 42, "/m", false, "", "", ""⟩).cpuHeader
        = none := by
  refine ⟨rfl, ?_, ?_, by decide, ?_⟩
  · exact ((cpu_usage_exchange ⟨0, false, false, false, false, false⟩ []
      ⟨⟨some [("enable-cpu-usage", ["true"])], none, [], none, none⟩,
        .ok "r", 0, 7, "/m", false, "", "", ""⟩ 41).1 rfl).1
  · exact ((cpu_usage_exchange ⟨0, false, false, false, false, false⟩ []
      ⟨⟨some [("enable-cpu-usage", ["true"])], none, [], none, none⟩,
        .ok "r", 0, 7, "/m", false, "", "", ""⟩ 41).1 rfl).2
  · exact (cpu_usage_exchange ⟨0, false, false, false, false, false⟩ []
      ⟨⟨some [], none, [], none, none⟩, .ok "r", 0, 7, "/m", false, "", "", ""⟩ 42).2
      (by decide)

/-- C6: round trip of a registered custom context key — the client logger
appends a non-empty registered context value to the outgoing metadata; a
server whose incoming metadata is that carrier observes the value under
the same name and writes it into its active context; and the server's own
outbound client call carries it again in its outgoing metadata. -/
theorem custom_key_round_trip (keys : List String) (key v : String)
    (cfgC cfgS cfgC2 : Config) (cinp cinp2 : ClientInput) (sinp : UnaryServerInput)
    (hnd : keys.Nodup) (hk : key ∈ keys)
    (hv : contextValue cinp.ctx key = v) (hne : v ≠ "")
    (h0 : mdGet (cinp.ctx.outgoing.getD []) key = [])
    (hs : sinp.ctx.incoming
        = some ((loggerUnaryClientInterceptor cfgC keys cinp).ctxToInvoker.outgoing.getD [])) :
    mdGet ((loggerUnaryClientInterceptor cfgC keys cinp).ctxToInvoker.outgoing.getD []) key = [v]
    ∧ GrpcHeaderValue sinp.ctx key = v
    ∧ contextValue (defaultUnaryServerInterceptor cfgS keys sinp).ctxOut key = v
    ∧ v ∈ mdGet ((loggerUnaryClientInterceptor cfgC2 keys
          { cinp2 with ctx := (defaultUnaryServerInterceptor cfgS keys sinp).ctxOut
            }).ctxToInvoker.outgoing.getD []) key := by
  have h1 : mdGet ((loggerUnaryClientInterceptor cfgC keys cinp).ctxToInvoker.outgoing.getD [])
      key = [v] := by
    rw [ctxToInvoker_loggerUnaryClientInterceptor]
    exact clientKeyFold_mdGet_exact keys key v hne hnd hk ([], cinp.ctx) hv h0
  have h2 : GrpcHeaderValue sinp.ctx key = v := by
    unfold GrpcHeaderValue
    rw [hs]
    show String.intercalate ";"
      (mdGet ((loggerUnaryClientInterceptor cfgC keys cinp).ctxToInvoker.outgoing.getD []) key)
      = v
    rw [h1]
    exact intercalate_singleton ";" v
  have h3 : contextValue (defaultUnaryServerInterceptor cfgS keys sinp).ctxOut key = v := by
    rw [ctxOut_defaultUnaryServerInterceptor]
    exact grpcHeaderKeyFold_contextValue keys key v hne sinp.ctx h2 (Or.inl hk)
  refine ⟨h1, h2, h3, ?_⟩
  rw [ctxToInvoker_loggerUnaryClientInterceptor]
  apply clientKeyFold_mdGet_mem keys key v hne
  left
  exact ⟨hk, h3⟩

/-- C6 witness: the value "9527" registered under "x-ego-uid" travels from
the client context into the outgoing metadata, is observed by the server,
written into the server context, and reappears in the server's own
outbound call. -/
theorem custom_key_round_trip_witness :
    mdGet ((loggerUnaryClientInterceptor ⟨0, false, false, false, false, false⟩ ["x-ego-uid"]
        ⟨⟨none, none, [("x-ego-uid", "9527")], none, none⟩, none, 0, "/m", "t",
          false, "", "", ""⟩).ctxToInvoker.outgoing.getD []) "x-ego-uid" = ["9527"]
    ∧ GrpcHeaderValue ⟨some [("x-ego-uid", ["9527"])], none, [], none, none⟩ "x-ego-uid" = "9527"
    ∧ contextValue (defaultUnaryServerInterceptor ⟨0, false, false, false, false, false⟩
        ["x-ego-uid"]
        ⟨⟨some [("x-ego-uid", ["9527"])], none, [], none, none⟩, .ok "r", 0, 0, "/m",
          false, "", "", ""⟩).ctxOut "x-ego-uid" = "9527"
    ∧ "9527" ∈ mdGet ((loggerUnaryClientInterceptor ⟨0, false, false, false, false, false⟩
        ["x-ego-uid"]
        ⟨(defaultUnaryServerInterceptor ⟨0, false, false, false, false, false⟩ ["x-ego-uid"]
            ⟨⟨some [("x-ego-uid", ["9527"])], none, [], none, none⟩, .ok "r", 0, 0, "/m",
              false, "", "", ""⟩).ctxOut, none, 0, "/m", "t",
          false, "", "", ""⟩).ctxToInvoker.outgoing.getD []) "x-ego-uid" := by
  exact custom_key_round_trip ["x-ego-uid"] "x-ego-uid" "9527"
    ⟨0, false, false, false, false, false⟩ ⟨0, false, false, false, false, false⟩
    ⟨0, false, false, false, false, false⟩
    ⟨⟨none, none, [("x-ego-uid", "9527")], none, none⟩, none, 0, "/m", "t", false, "", "", ""⟩
    ⟨⟨none, none, [("x-ego-uid", "9527")], none, none⟩, none, 0, "/m", "t", false, "", "", ""⟩
    ⟨⟨some [("x-ego-uid", ["9527"])], none, [], none, none⟩, .ok "r", 0, 0, "/m",
      false, "", "", ""⟩
    (by decide) (by decide) rfl (by decide) rfl (by decide)

/-- C4 counterexample: a streaming server call with no error, access
logging disabled and elapsed time below the slow threshold still emits one
info "access" entry, where the claim demands none. -/
theorem quiet_stream_still_logs_counterexample :
    ((defaultStreamServerInterceptor ⟨100, false, false, false, false, false⟩
        ⟨⟨some [], none, [], none, none⟩, .ok "resp", 50⟩).logs.map
      (fun l => (l.lvl, l.msg)))
      = [(Level.info, "access")] := by decide

/-- C4 (amended): with access logging disabled and the call not slow, an
error-free call emits no log entry on the server unary and client unary
paths; the streaming server path nevertheless always emits one info
"access" entry. -/
theorem no_logging_when_disabled (cfg : Config) (keys : List String)
    (sinp : UnaryServerInput) (cinp : ClientInput) (tinp : StreamServerInput) (r r2 : String)
    (hacc : cfg.enableAccessInterceptor = false)
    (hslow1 : ¬(0 < cfg.slowLogThreshold ∧ cfg.slowLogThreshold < sinp.cost))
    (hslow2 : ¬(0 < cfg.slowLogThreshold ∧ cfg.slowLogThreshold < cinp.cost))
    (hslow3 : ¬(0 < cfg.slowLogThreshold ∧ cfg.slowLogThreshold < tinp.cost)) :
    (defaultUnaryServerInterceptor cfg keys { sinp with handler := .ok r }).logs = []
    ∧ (loggerUnaryClientInterceptor cfg keys { cinp with invokeErr := none }).logs = []
    ∧ ((defaultStreamServerInterceptor cfg { tinp with handler := .ok r2 }).logs.map
        (fun l => (l.lvl, l.msg))) = [(Level.info, "access")] := by
  refine ⟨?_, ?_, ?_⟩
  · unfold defaultUnaryServerInterceptor
    simp [recoverOutcome, hacc, hslow1]
  · unfold loggerUnaryClientInterceptor
    simp [hacc, hslow2]
  · unfold defaultStreamServerInterceptor
    simp [recoverOutcome, hslow3]

/-- C4 witness: a 50 ns successful call under a 100 ns threshold with
access logging disabled emits nothing on the unary server and client
paths. -/
theorem no_logging_when_disabled_witness :
    (⟨100, false, false, false, false, false⟩ : Config).enableAccessInterceptor = false
    ∧ (defaultUnaryServerInterceptor ⟨100, false, false, false, false, false⟩ []
        ⟨⟨some [], none, [], none, none⟩, .ok "r", 50, 0, "/m", false, "", "", ""⟩).logs = []
    ∧ (loggerUnaryClientInterceptor ⟨100, false, false, false, false, false⟩ []
        ⟨⟨some [], none, [], none, none⟩, none, 50, "/m", "t", false, "", "", ""⟩).logs
        = [] := by
  refine ⟨rfl, ?_, ?_⟩
  · exact (no_logging_when_disabled ⟨100, false, false, false, false, false⟩ []
      ⟨⟨some [], none, [], none, none⟩, .ok "x", 50, 0, "/m", false, "", "", ""⟩
      ⟨⟨some [], none, [], none, none⟩, none, 50, "/m", "t", false, "", "", ""⟩
      ⟨⟨some [], none, [], none, none⟩, .ok "x", 50⟩ "r" "r2"
      rfl (by decide) (by decide) (by decide)).1
  · exact (no_logging_when_disabled ⟨100, false, false, false, false, false⟩ []
      ⟨⟨some [], none, [], none, none⟩, .ok "x", 50, 0, "/m", false, "", "", ""⟩
      ⟨⟨some [], none, [], none, none⟩, none, 50, "/m", "t", false, "", "", ""⟩
      ⟨⟨some [], none, [], none, none⟩, .ok "x", 50⟩ "r" "r2"
      rfl (by decide) (by decide) (by decide)).2.1
